import Mathlib

/-!
Shallow embedding of `ceilometer/storage/impl_db2.py` (the DB2 storage
backend adapter) and proofs about its query-translation, write-path,
read-path, schema and pooling behaviour.

Documents are modelled as typed records; the document store's collections
are lists of such records; query documents mirror the Python dicts built by
the code; fallible operations return `Except StorageError`.
-/

/-- Decidable equality on `Except`, so concrete adapter results can be
compared by `decide`. -/
instance {ε : Type u} {α : Type v} [DecidableEq ε] [DecidableEq α] :
    DecidableEq (Except ε α)
  | .error a, .error b => decidable_of_iff (a = b) (by simp)
  | .error _, .ok _ => .isFalse (by simp)
  | .ok _, .error _ => .isFalse (by simp)
  | .ok a, .ok b => decidable_of_iff (a = b) (by simp)

namespace DB2

/-- Errors raised by the adapter: `RuntimeError` for client-usage errors and
`NotImplementedError` for permanently unsupported operations. -/
inductive StorageError where
  | runtimeError (msg : String)
  | notImplemented (msg : String)
deriving DecidableEq, Repr

/-! ### Range Builder: `make_timestamp_range` -/

/-- Embeds `make_timestamp_range(start, end, start_timestamp_op,
end_timestamp_op)`.  The result is the query fragment `ts_range`: an
association list from Mongo range-operator name to bound value.  Timestamps
are modelled as `Nat`.  `if start:` in Python is truthiness on an optional
datetime, modelled as `Option.isSome`. -/
def make_timestamp_range (start «end» : Option Nat)
    (start_timestamp_op end_timestamp_op : Option String) : List (String × Nat) :=
  let r₁ : List (String × Nat) :=
    match start with
    | some s => [(if start_timestamp_op = some "gt" then "$gt" else "$gte", s)]
    | none => []
  let r₂ : List (String × Nat) :=
    match «end» with
    | some e => [(if end_timestamp_op = some "le" then "$lte" else "$lt", e)]
    | none => []
  r₁ ++ r₂

/-- Semantics of a timestamp-range fragment: a timestamp `t` satisfies the
fragment when it satisfies every bound in it (Mongo conjunction of range
operators). -/
def tsRangeMatches (r : List (String × Nat)) (t : Nat) : Bool :=
  r.all fun b =>
    if b.1 = "$gt" then decide (b.2 < t)
    else if b.1 = "$gte" then decide (b.2 ≤ t)
    else if b.1 = "$lt" then decide (t < b.2)
    else if b.1 = "$lte" then decide (t ≤ b.2)
    else false

/-! ### Filter Translator: `make_query_from_filter` -/

/-- The abstract sample filter (`SampleFilter` from the storage base), with
exactly the fields `make_query_from_filter` reads.  Metaquery keys arrive
already carrying their `metadata.`-style dotted form; values are strings. -/
structure SampleFilter where
  user : Option String := none
  project : Option String := none
  meter : Option String := none
  resource : Option String := none
  source : Option String := none
  start : Option Nat := none
  «end» : Option Nat := none
  start_timestamp_op : Option String := none
  end_timestamp_op : Option String := none
  metaquery : List (String × String) := []
deriving DecidableEq, Repr

/-- The query document `q` that `make_query_from_filter` builds: one optional
equality constraint per field of the Python dict, the timestamp-range
fragment (empty list = no `timestamp` key), and the `resource_`-prefixed
metadata equality constraints. -/
structure QueryDoc where
  user_id : Option String := none
  project_id : Option String := none
  counter_name : Option String := none
  resource_id : Option String := none
  source : Option String := none
  timestamp : List (String × Nat) := []
  meta : List (String × String) := []
deriving DecidableEq, Repr

/-- Embeds `make_query_from_filter(sample_filter, require_meter)`: equality
constraints for every present optional field, `RuntimeError` when
`require_meter` is set and the filter has no meter name, the Range Builder's
fragment attached only when non-empty (an empty fragment and an absent
`timestamp` key coincide in this model), and the metaquery expanded with the
`resource_` prefix. -/
def make_query_from_filter (f : SampleFilter) (require_meter : Bool := true) :
    Except StorageError QueryDoc :=
  if f.meter.isNone ∧ require_meter then
    .error (.runtimeError "Missing required meter specifier")
  else
    .ok { user_id := f.user
          project_id := f.project
          counter_name := f.meter
          resource_id := f.resource
          source := f.source
          timestamp := make_timestamp_range f.start f.«end»
            f.start_timestamp_op f.end_timestamp_op
          meta := f.metaquery.map fun kv => ("resource_" ++ kv.1, kv.2) }

end DB2

/-! ## C2: range-builder bound semantics -/

/-- C2: for every optional start value, end value, and operator pair, the
fragment built by `make_timestamp_range` has a lower bound on `start` that is
inclusive by default and exclusive exactly when the start operator is `gt`,
an upper bound on `end` that is exclusive by default and inclusive exactly
when the end operator is `le`; an omitted `start` or `end` contributes no
bound, and both omitted give the empty fragment, not an error.  Stated via
the satisfaction semantics `tsRangeMatches` of the produced fragment. -/
theorem c2_make_timestamp_range_spec (s e t : Nat) (sop eop : Option String) :
    DB2.make_timestamp_range none none sop eop = []
    ∧ (DB2.tsRangeMatches (DB2.make_timestamp_range (some s) (some e) sop eop) t
        = ((if sop = some "gt" then decide (s < t) else decide (s ≤ t))
           && (if eop = some "le" then decide (t ≤ e) else decide (t < e))))
    ∧ (DB2.tsRangeMatches (DB2.make_timestamp_range (some s) none sop eop) t
        = (if sop = some "gt" then decide (s < t) else decide (s ≤ t)))
    ∧ (DB2.tsRangeMatches (DB2.make_timestamp_range none (some e) sop eop) t
        = (if eop = some "le" then decide (t ≤ e) else decide (t < e))) := by
  refine ⟨rfl, ?_, ?_, ?_⟩ <;>
    simp only [DB2.make_timestamp_range, DB2.tsRangeMatches] <;>
    by_cases h1 : sop = some "gt" <;> by_cases h2 : eop = some "le" <;>
    simp [h1, h2, List.all]

/-! ## C3: filter translation and the required-meter usage error -/

/-- C3: `make_query_from_filter` with `require_meter` true and a filter whose
meter name is absent fails with the required-field `RuntimeError`; for every
filter whose meter name is present it succeeds and the resulting query
carries the equality constraint on `counter_name`; and with `require_meter`
false it succeeds for every filter. -/
theorem c3_make_query_require_meter (f : DB2.SampleFilter) :
    (f.meter = none →
      DB2.make_query_from_filter f true
        = .error (.runtimeError "Missing required meter specifier"))
    ∧ (∀ m, f.meter = some m → ∀ rm,
        ∃ q, DB2.make_query_from_filter f rm = .ok q ∧ q.counter_name = some m)
    ∧ (∃ q, DB2.make_query_from_filter f false = .ok q) := by
  refine ⟨?_, ?_, ?_⟩
  · intro h
    simp [DB2.make_query_from_filter, h, Option.isNone]
  · intro m h rm
    refine ⟨{ user_id := f.user
              project_id := f.project
              counter_name := f.meter
              resource_id := f.resource
              source := f.source
              timestamp := DB2.make_timestamp_range f.start f.«end»
                f.start_timestamp_op f.end_timestamp_op
              meta := f.metaquery.map fun kv => ("resource_" ++ kv.1, kv.2) },
           ?_, h⟩
    simp [DB2.make_query_from_filter, h, Option.isNone]
  · refine ⟨{ user_id := f.user
              project_id := f.project
              counter_name := f.meter
              resource_id := f.resource
              source := f.source
              timestamp := DB2.make_timestamp_range f.start f.«end»
                f.start_timestamp_op f.end_timestamp_op
              meta := f.metaquery.map fun kv => ("resource_" ++ kv.1, kv.2) },
           ?_⟩
    simp [DB2.make_query_from_filter]

/-- Witness for C3 at a concrete filter: the empty filter (no meter) with
`require_meter` true yields the usage error, and with a meter present the
translation succeeds with the `counter_name` constraint. -/
theorem c3_witness :
    (DB2.make_query_from_filter {} true
      = .error (.runtimeError "Missing required meter specifier"))
    ∧ (∃ q, DB2.make_query_from_filter { meter := some "cpu" } true = .ok q
         ∧ q.counter_name = some "cpu") := by
  constructor
  · exact (c3_make_query_require_meter {}).1 rfl
  · exact (c3_make_query_require_meter { meter := some "cpu" }).2.1 "cpu" rfl true

/-! ## Metadata codec (alarm `matching_metadata`) -/

namespace DB2

/-- Wire shapes of `matching_metadata`: either a flat map (the old database
format) or a sequence of `{key, value}` pair documents (the canonical
encoded form).  Flat maps are association lists in insertion order, the
shape Python dicts have. -/
inductive MetaWire where
  | flat (m : List (String × String))
  | pairs (l : List (String × String))
deriving DecidableEq, Repr

/-- One Python dict assignment `d[k] = v` on an insertion-ordered
association list: an existing key keeps its position and has its value
replaced, a new key is appended. -/
def dictInsert {β : Type} (al : List (String × β)) (k : String) (v : β) :
    List (String × β) :=
  if k ∈ al.map Prod.fst then
    al.map fun kv => if kv.1 = k then (k, v) else kv
  else al ++ [(k, v)]

/-- Embeds `Connection._decode_matching_metadata`: a flat map is returned
as-is (old-format compatibility); a sequence of pair documents is folded
into a fresh flat map by successive dict assignments. -/
def decode_matching_metadata : MetaWire → List (String × String)
  | .flat m => m
  | .pairs l => l.foldl (fun acc kv => dictInsert acc kv.1 kv.2) []

/-- Embeds `Connection._encode_matching_metadata`: a truthy (non-empty) flat
map becomes the list of its `{key, value}` pairs in iteration order; a falsy
(empty) input passes through unchanged, still in the flat shape. -/
def encode_matching_metadata (m : List (String × String)) : MetaWire :=
  if m = [] then .flat m else .pairs m

theorem dictInsert_keys_nodup {al : List (String × String)} {k v : String}
    (h : (al.map Prod.fst).Nodup) :
    ((dictInsert al k v).map Prod.fst).Nodup := by
  unfold dictInsert
  by_cases hk : k ∈ al.map Prod.fst
  · rw [if_pos hk]
    have : (al.map fun kv => if kv.1 = k then (k, v) else kv).map Prod.fst
        = al.map Prod.fst := by
      simp only [List.map_map]
      apply List.map_congr_left
      intro kv _
      by_cases hkv : kv.1 = k <;> simp [hkv]
    rw [this]
    exact h
  · rw [if_neg hk]
    rw [List.map_append]
    simp only [List.map_cons, List.map_nil]
    rw [List.nodup_append]
    refine ⟨h, List.nodup_singleton k, ?_⟩
    intro x hx
    simp only [List.mem_singleton]
    intro hxk
    subst hxk
    exact hk hx

theorem decode_pairs_fold_nodup (acc : List (String × String))
    (l : List (String × String)) (h : (acc.map Prod.fst).Nodup) :
    (((l.foldl (fun a kv => dictInsert a kv.1 kv.2) acc)).map Prod.fst).Nodup := by
  induction l generalizing acc with
  | nil => exact h
  | cons kv rest ih =>
    exact ih _ (dictInsert_keys_nodup h)

theorem decode_fold_append (acc : List (String × String))
    (l : List (String × String)) (hnd : (l.map Prod.fst).Nodup)
    (hdisj : ∀ k ∈ l.map Prod.fst, k ∉ acc.map Prod.fst) :
    l.foldl (fun a kv => dictInsert a kv.1 kv.2) acc = acc ++ l := by
  induction l generalizing acc with
  | nil => simp
  | cons kv rest ih =>
    simp only [List.foldl_cons]
    have hk : kv.1 ∉ acc.map Prod.fst := by
      apply hdisj
      simp
    have hins : dictInsert acc kv.1 kv.2 = acc ++ [(kv.1, kv.2)] := by
      unfold dictInsert
      rw [if_neg hk]
    rw [hins]
    have hnd' : (rest.map Prod.fst).Nodup := by
      simp only [List.map_cons, List.nodup_cons] at hnd
      exact hnd.2
    have hhead : kv.1 ∉ rest.map Prod.fst := by
      simp only [List.map_cons, List.nodup_cons] at hnd
      exact hnd.1
    have hdisj' : ∀ k ∈ rest.map Prod.fst,
        k ∉ (acc ++ [(kv.1, kv.2)]).map Prod.fst := by
      intro k hkr
      rw [List.map_append]
      rw [List.mem_append]
      rintro (hka | hks)
      · exact hdisj k (by simp [hkr]) hka
      · simp only [List.map_cons, List.map_nil, List.mem_singleton] at hks
        subst hks
        exact hhead hkr
    rw [ih _ hnd' hdisj']
    simp

end DB2

/-! ## C5: decode ∘ encode = id on flat maps; decode total on both shapes -/

/-- C5: for every flat metadata map `m` (association list with distinct
keys), decoding the encoding of `m` returns `m`; moreover the decoder is
defined on both wire shapes — it returns a flat map unchanged, and on every
sequence of pair documents it deterministically produces a well-formed flat
map (distinct keys). -/
theorem c5_metadata_roundtrip (m l : List (String × String))
    (h : (m.map Prod.fst).Nodup) :
    DB2.decode_matching_metadata (DB2.encode_matching_metadata m) = m
    ∧ DB2.decode_matching_metadata (.flat m) = m
    ∧ ((DB2.decode_matching_metadata (.pairs l)).map Prod.fst).Nodup := by
  refine ⟨?_, rfl, ?_⟩
  · unfold DB2.encode_matching_metadata
    by_cases hm : m = []
    · rw [if_pos hm]
      rfl
    · rw [if_neg hm]
      show m.foldl (fun acc kv => DB2.dictInsert acc kv.1 kv.2) [] = m
      rw [DB2.decode_fold_append [] m h (by simp)]
      simp
  · exact DB2.decode_pairs_fold_nodup [] l (by simp)

/-- Witness for C5 at a concrete two-key map: the round trip is the
identity and the decoder accepts the pair-sequence shape. -/
theorem c5_witness :
    DB2.decode_matching_metadata
        (DB2.encode_matching_metadata [("host", "h1"), ("size", "2")])
      = [("host", "h1"), ("size", "2")]
    ∧ ((DB2.decode_matching_metadata
          (.pairs [("a", "1"), ("a", "2"), ("b", "3")])).map Prod.fst).Nodup := by
  constructor
  · exact (c5_metadata_roundtrip [("host", "h1"), ("size", "2")] [] (by decide)).1
  · exact (c5_metadata_roundtrip [] [("a", "1"), ("a", "2"), ("b", "3")]
      (by decide)).2.2

/-! ## Meter documents, query evaluation and `get_samples` -/

namespace DB2

/-- A raw sample document in the `meter` collection: the incoming data dict
of `record_metering_data`, possibly extended with the storage `_id`.  Older
stored records may lack `counter_unit`, hence the `Option`. -/
structure MeterDoc where
  _id : Option String := none
  user_id : String := ""
  project_id : String := ""
  resource_id : String := ""
  source : String := ""
  counter_name : String := ""
  counter_type : String := ""
  counter_unit : Option String := none
  counter_volume : Nat := 0
  timestamp : Nat := 0
  resource_metadata : List (String × String) := []
deriving DecidableEq, Repr

/-- An optional equality constraint from a query document: absent means no
constraint, present means the document field must equal the value. -/
def matchOpt (c : Option String) (v : String) : Bool :=
  match c with
  | none => true
  | some s => s == v

/-- The dotted-field view of a sample document's nested `resource_metadata`
dict, as Mongo queries address it (`resource_metadata.<key>`). -/
def docMetaFields (d : MeterDoc) : List (String × String) :=
  d.resource_metadata.map fun p => ("resource_metadata." ++ p.1, p.2)

/-- Evaluates a query document built by `make_query_from_filter` (or by
`get_resources`' inline query construction) against one meter document. -/
def matchesQuery (q : QueryDoc) (d : MeterDoc) : Bool :=
  matchOpt q.user_id d.user_id
  && matchOpt q.project_id d.project_id
  && matchOpt q.counter_name d.counter_name
  && matchOpt q.resource_id d.resource_id
  && matchOpt q.source d.source
  && tsRangeMatches q.timestamp d.timestamp
  && q.meta.all fun kv => (docMetaFields d).lookup kv.1 == some kv.2

/-- The `models.Sample` record yielded by `get_samples`: the stored document
minus the storage-internal `_id`, with a missing `counter_unit` defaulted to
the empty string. -/
structure SampleModel where
  user_id : String
  project_id : String
  resource_id : String
  source : String
  counter_name : String
  counter_type : String
  counter_unit : String
  counter_volume : Nat
  timestamp : Nat
  resource_metadata : List (String × String)
deriving DecidableEq, Repr

/-- The per-document yield step of `get_samples`: delete `_id`, default the
unit, construct `models.Sample`. -/
def toSampleModel (d : MeterDoc) : SampleModel :=
  { user_id := d.user_id
    project_id := d.project_id
    resource_id := d.resource_id
    source := d.source
    counter_name := d.counter_name
    counter_type := d.counter_type
    counter_unit := d.counter_unit.getD ""
    counter_volume := d.counter_volume
    timestamp := d.timestamp
    resource_metadata := d.resource_metadata }

/-- Insertion step of a timestamp-descending sort (models the backend's
`sort=[('timestamp', DESCENDING)]`). -/
def insertByTsDesc (d : MeterDoc) : List MeterDoc → List MeterDoc
  | [] => [d]
  | x :: xs =>
      if x.timestamp ≤ d.timestamp then d :: x :: xs
      else x :: insertByTsDesc d xs

/-- Timestamp-descending sort of a list of meter documents. -/
def sortByTsDesc (l : List MeterDoc) : List MeterDoc :=
  l.foldr insertByTsDesc []

/-- Embeds `Connection.get_samples(sample_filter, limit)`.  Returns the
yielded samples together with a flag recording whether a backend query
(`self.db.meter.find`) was issued: `limit == 0` short-circuits before any
query.  A `limit` of `none` models Python's default `None`. -/
def get_samples (db : List MeterDoc) (f : SampleFilter) (limit : Option Nat) :
    Except StorageError (List SampleModel × Bool) :=
  if limit = some 0 then .ok ([], false)
  else
    match make_query_from_filter f false with
    | .error e => .error e
    | .ok q =>
        let sorted := sortByTsDesc (db.filter (matchesQuery q))
        let capped :=
          match limit with
          | some n => sorted.take n
          | none => sorted
        .ok (capped.map toSampleModel, true)

theorem mem_insertByTsDesc {x d : MeterDoc} {l : List MeterDoc} :
    x ∈ insertByTsDesc d l → x = d ∨ x ∈ l := by
  induction l with
  | nil =>
      intro h
      simp only [insertByTsDesc, List.mem_singleton] at h
      exact Or.inl h
  | cons y ys ih =>
      intro h
      simp only [insertByTsDesc] at h
      by_cases hts : y.timestamp ≤ d.timestamp
      · rw [if_pos hts] at h
        rcases List.mem_cons.mp h with h1 | h2
        · exact Or.inl h1
        · exact Or.inr h2
      · rw [if_neg hts] at h
        rcases List.mem_cons.mp h with h1 | h2
        · exact Or.inr (by simp [h1])
        · rcases ih h2 with h3 | h4
          · exact Or.inl h3
          · exact Or.inr (List.mem_cons_of_mem _ h4)

theorem mem_sortByTsDesc {x : MeterDoc} {l : List MeterDoc} :
    x ∈ sortByTsDesc l → x ∈ l := by
  induction l with
  | nil => intro h; exact absurd h (List.not_mem_nil x)
  | cons y ys ih =>
      intro h
      simp only [sortByTsDesc, List.foldr_cons] at h
      rcases mem_insertByTsDesc h with h1 | h2
      · simp [h1]
      · exact List.mem_cons_of_mem _ (ih h2)

theorem pairwise_insertByTsDesc {d : MeterDoc} {l : List MeterDoc}
    (h : l.Pairwise fun a b => b.timestamp ≤ a.timestamp) :
    (insertByTsDesc d l).Pairwise fun a b => b.timestamp ≤ a.timestamp := by
  induction l with
  | nil => simp [insertByTsDesc]
  | cons x xs ih =>
      simp only [insertByTsDesc]
      rcases List.pairwise_cons.mp h with ⟨hx, hxs⟩
      by_cases hts : x.timestamp ≤ d.timestamp
      · rw [if_pos hts]
        refine List.pairwise_cons.mpr ⟨?_, h⟩
        intro y hy
        rcases List.mem_cons.mp hy with h1 | h2
        · rw [h1]; exact hts
        · exact le_trans (hx y h2) hts
      · rw [if_neg hts]
        refine List.pairwise_cons.mpr ⟨?_, ih hxs⟩
        intro y hy
        rcases mem_insertByTsDesc hy with h1 | h2
        · rw [h1]; exact le_of_not_le hts
        · exact hx y h2

theorem pairwise_sortByTsDesc (l : List MeterDoc) :
    (sortByTsDesc l).Pairwise fun a b => b.timestamp ≤ a.timestamp := by
  induction l with
  | nil => simp [sortByTsDesc]
  | cons x xs ih =>
      simp only [sortByTsDesc, List.foldr_cons]
      exact pairwise_insertByTsDesc ih

end DB2

/-! ## C6: `get_samples` ordering, limit, short-circuit and yield shape -/

/-- C6: for every store, filter and limit, `get_samples` with `limit = 0`
returns the empty sequence with no backend query issued; every successful
result is sorted descending by timestamp and its length is capped at the
limit when one is given; any non-zero-limit success did issue the query;
every yielded sample comes from a stored document with the unit defaulted to
the empty string when the record lacked `counter_unit`; and the yield is
independent of the storage-internal `_id` field (it is removed). -/
theorem c6_get_samples_spec (db : List DB2.MeterDoc) (f : DB2.SampleFilter)
    (limit : Option Nat) :
    (limit = some 0 → DB2.get_samples db f limit = .ok ([], false))
    ∧ (∀ res issued, DB2.get_samples db f limit = .ok (res, issued) →
        (res.Pairwise fun a b => b.timestamp ≤ a.timestamp)
        ∧ (∀ n, limit = some n → res.length ≤ n)
        ∧ (limit ≠ some 0 → issued = true)
        ∧ (∀ s ∈ res, ∃ d ∈ db, s = DB2.toSampleModel d
            ∧ (d.counter_unit = none → s.counter_unit = "")))
    ∧ (∀ d : DB2.MeterDoc, ∀ i, DB2.toSampleModel { d with _id := i }
        = DB2.toSampleModel d) := by
  refine ⟨?_, ?_, fun d i => rfl⟩
  · intro h
    simp [DB2.get_samples, h]
  · intro res issued hok
    unfold DB2.get_samples at hok
    by_cases h0 : limit = some 0
    · rw [if_pos h0] at hok
      injection hok with hok
      injection hok with h1 h2
      subst h1
      subst h2
      refine ⟨List.Pairwise.nil, ?_, ?_, by simp⟩
      · intro n hn
        simp
      · intro hne
        exact absurd h0 hne
    · rw [if_neg h0] at hok
      rcases hq : DB2.make_query_from_filter f false with e | q
      · rw [hq] at hok
        exact absurd hok (by simp)
      · rw [hq] at hok
        simp only [Except.ok.injEq, Prod.mk.injEq] at hok
        obtain ⟨hres, hissued⟩ := hok
        have hsortmem : ∀ x ∈ DB2.sortByTsDesc (db.filter (DB2.matchesQuery q)),
            x ∈ db := by
          intro x hx
          exact List.mem_of_mem_filter (DB2.mem_sortByTsDesc hx)
        have hsorted := DB2.pairwise_sortByTsDesc (db.filter (DB2.matchesQuery q))
        refine ⟨?_, ?_, fun _ => hissued.symm, ?_⟩
        · subst hres
          cases limit with
          | none =>
              exact List.Pairwise.map _ (fun a b hab => hab) hsorted
          | some n =>
              refine List.Pairwise.map _ (fun a b hab => hab) ?_
              exact List.Pairwise.sublist (List.take_sublist n _) hsorted
        · intro n hn
          subst hres
          subst hn
          rw [List.length_map]
          exact List.length_take_le n _
        · intro s hs
          subst hres
          have : ∃ d, d ∈ db ∧ s = DB2.toSampleModel d := by
            cases limit with
            | none =>
                rcases List.mem_map.mp hs with ⟨d, hd, hds⟩
                exact ⟨d, hsortmem d hd, hds.symm⟩
            | some n =>
                rcases List.mem_map.mp hs with ⟨d, hd, hds⟩
                exact ⟨d, hsortmem d (List.mem_of_mem_take hd), hds.symm⟩
          rcases this with ⟨d, hd, hds⟩
          refine ⟨d, hd, hds, ?_⟩
          intro hu
          rw [hds]
          simp [DB2.toSampleModel, hu]

/-- Witness for C6 at a concrete store: with `limit = 0` the call yields the
empty sequence without issuing a backend query. -/
theorem c6_witness :
    DB2.get_samples [{ counter_name := "cpu", timestamp := 5 }] {} (some 0)
      = .ok ([], false) :=
  (c6_get_samples_spec [{ counter_name := "cpu", timestamp := 5 }] {} (some 0)).1
    rfl

/-! ## Resource documents and `get_resources` -/

namespace DB2

/-- A document in the `resource` collection: current denormalized state for
one resource id.  Each meter-descriptor entry is a `(counter_name,
counter_type, counter_unit)` triple; the unit is optional in old documents. -/
structure ResourceDoc where
  _id : String := ""
  user_id : String := ""
  project_id : String := ""
  source : String := ""
  metadata : List (String × String) := []
  meter : List (String × String × Option String) := []
deriving DecidableEq, Repr

/-- The `models.Resource` record yielded by `get_resources`: first/last
sample timestamps are always `None` in this backend, and each meter
descriptor's missing unit is defaulted to the empty string. -/
structure ResourceModel where
  resource_id : String
  project_id : String
  user_id : String
  source : String
  metadata : List (String × String)
  first_sample_timestamp : Option Nat
  last_sample_timestamp : Option Nat
  meter : List (String × String × String)
deriving DecidableEq, Repr

/-- The yield step of `get_resources` for one resource document. -/
def toResourceModel (r : ResourceDoc) : ResourceModel :=
  { resource_id := r._id
    project_id := r.project_id
    user_id := r.user_id
    source := r.source
    metadata := r.metadata
    first_sample_timestamp := none
    last_sample_timestamp := none
    meter := r.meter.map fun t => (t.1, t.2.1, t.2.2.getD "") }

/-- The query document `q` that `get_resources` builds inline and runs
against the raw meter collection: equality constraints for the present
optional arguments, the `resource_`-prefixed metaquery, and — only when a
time bound is supplied — the timestamp-range fragment. -/
def resourcesMeterQuery (user project source resource : Option String)
    (start_timestamp : Option Nat) (start_timestamp_op : Option String)
    (end_timestamp : Option Nat) (end_timestamp_op : Option String)
    (metaquery : List (String × String)) : QueryDoc :=
  { user_id := user
    project_id := project
    source := source
    resource_id := resource
    meta := metaquery.map fun kv => ("resource_" ++ kv.1, kv.2)
    timestamp :=
      if start_timestamp.isSome ∨ end_timestamp.isSome then
        make_timestamp_range start_timestamp end_timestamp
          start_timestamp_op end_timestamp_op
      else [] }

/-- Embeds `Connection.get_resources`: rejects pagination, builds the query
above, resolves the distinct resource ids of the matching raw meter
documents — unconditionally, whether or not a time bound is present — and
then yields exactly the resource documents whose `_id` lies in that set. -/
def get_resources (meterColl : List MeterDoc) (resourceColl : List ResourceDoc)
    (user project source resource : Option String)
    (start_timestamp : Option Nat) (start_timestamp_op : Option String)
    (end_timestamp : Option Nat) (end_timestamp_op : Option String)
    (metaquery : List (String × String)) (pagination : Option Unit) :
    Except StorageError (List ResourceModel) :=
  if pagination.isSome then .error (.notImplemented "Pagination not implemented")
  else
    let q := resourcesMeterQuery user project source resource
      start_timestamp start_timestamp_op end_timestamp end_timestamp_op metaquery
    let resource_ids :=
      ((meterColl.filter (matchesQuery q)).map (·.resource_id)).dedup
    .ok ((resourceColl.filter fun r => r._id ∈ resource_ids).map toResourceModel)

/-- Direct evaluation of the resource-scoped filter against a resource
document (equality on the present optional arguments and on the metaquery),
as the claim's "filter applied to the resource collection directly" reads. -/
def resourceDocMatches (user project source resource : Option String)
    (metaquery : List (String × String)) (r : ResourceDoc) : Bool :=
  matchOpt user r.user_id
  && matchOpt project r.project_id
  && matchOpt source r.source
  && matchOpt resource r._id
  && metaquery.all fun kv => r.metadata.lookup kv.1 == some kv.2

/-- Modelled from the claim's words, NOT from the source, for comparison
with `get_resources`: when a time bound is supplied, use the meter-collection
indirection; when neither time bound is supplied, apply the filter to the
resource collection directly, without the meter-collection indirection. -/
def get_resources_claimed (meterColl : List MeterDoc)
    (resourceColl : List ResourceDoc)
    (user project source resource : Option String)
    (start_timestamp : Option Nat) (start_timestamp_op : Option String)
    (end_timestamp : Option Nat) (end_timestamp_op : Option String)
    (metaquery : List (String × String)) (pagination : Option Unit) :
    Except StorageError (List ResourceModel) :=
  if pagination.isSome then .error (.notImplemented "Pagination not implemented")
  else if start_timestamp.isSome ∨ end_timestamp.isSome then
    get_resources meterColl resourceColl user project source resource
      start_timestamp start_timestamp_op end_timestamp end_timestamp_op
      metaquery pagination
  else
    .ok ((resourceColl.filter
      (resourceDocMatches user project source resource metaquery)).map
        toResourceModel)

end DB2

/-! ## C1: the meter-collection indirection in `get_resources` -/

/-- Concrete resource document for the C1 scenarios. -/
def resourceDocR1 : DB2.ResourceDoc :=
  { _id := "r1", user_id := "u1", project_id := "p1", source := "s1" }

/-- Concrete raw sample document for the C1 witness. -/
def meterDocR1 : DB2.MeterDoc :=
  { resource_id := "r1", counter_name := "cpu", timestamp := 3 }

/-- C1 counterexample: with no time bound, the code still goes through the
meter collection.  On a store whose resource collection holds one document
but whose meter collection is empty, `get_resources` with an empty filter
and no time bound yields nothing, while the claim's direct resource-
collection query yields that resource; the two disagree. -/
theorem c1_counterexample :
    DB2.get_resources [] [resourceDocR1] none none none none none none none
        none [] none
      = .ok []
    ∧ DB2.get_resources_claimed [] [resourceDocR1] none none none none none
        none none none [] none
      = .ok [DB2.toResourceModel resourceDocR1]
    ∧ DB2.get_resources [] [resourceDocR1] none none none none none none none
        none [] none
      ≠ DB2.get_resources_claimed [] [resourceDocR1] none none none none none
          none none none [] none := by
  refine ⟨by decide, by decide, by decide⟩

/-- C1 amended: `get_resources` performs the meter-collection indirection on
every call, not only when a time bound is supplied — it resolves the
distinct set of resource ids matching the filter against the raw meter
collection and yields exactly the resource documents with those ids; the
time bounds only control whether the timestamp-range constraint is part of
the meter query (no time bound means no timestamp constraint, but the
indirection still happens). -/
theorem c1_amended_meter_indirection (mc : List DB2.MeterDoc)
    (rc : List DB2.ResourceDoc) (user project source resource : Option String)
    (st : Option Nat) (sop : Option String) («et» : Option Nat)
    (eop : Option String) (mq : List (String × String)) :
    (∀ res, DB2.get_resources mc rc user project source resource
        st sop «et» eop mq none = .ok res →
      (∀ m ∈ res, ∃ rd ∈ rc, m = DB2.toResourceModel rd
        ∧ ∃ d ∈ mc, DB2.matchesQuery (DB2.resourcesMeterQuery user project
            source resource st sop «et» eop mq) d = true
          ∧ d.resource_id = rd._id)
      ∧ (∀ rd ∈ rc, (∃ d ∈ mc, DB2.matchesQuery (DB2.resourcesMeterQuery user
            project source resource st sop «et» eop mq) d = true
          ∧ d.resource_id = rd._id) →
          DB2.toResourceModel rd ∈ res))
    ∧ (st = none → «et» = none →
        (DB2.resourcesMeterQuery user project source resource
          st sop «et» eop mq).timestamp = []) := by
  constructor
  · intro res hok
    unfold DB2.get_resources at hok
    rw [if_neg (by simp)] at hok
    simp only [Except.ok.injEq] at hok
    subst hok
    constructor
    · intro m hm
      rcases List.mem_map.mp hm with ⟨rd, hrd, hmrd⟩
      rcases List.mem_filter.mp hrd with ⟨hrc, hids⟩
      have : rd._id ∈ ((mc.filter (DB2.matchesQuery
          (DB2.resourcesMeterQuery user project source resource st sop «et»
            eop mq))).map (·.resource_id)).dedup := of_decide_eq_true hids
      rw [List.mem_dedup] at this
      rcases List.mem_map.mp this with ⟨d, hd, hdid⟩
      rcases List.mem_filter.mp hd with ⟨hdmc, hdq⟩
      exact ⟨rd, hrc, hmrd.symm, d, hdmc, hdq, hdid⟩
    · intro rd hrd hex
      rcases hex with ⟨d, hdmc, hdq, hdid⟩
      apply List.mem_map_of_mem
      rw [List.mem_filter]
      refine ⟨hrd, ?_⟩
      apply decide_eq_true
      rw [List.mem_dedup]
      exact List.mem_map.mpr ⟨d, List.mem_filter.mpr ⟨hdmc, hdq⟩, hdid⟩
  · intro hst het
    subst hst
    subst het
    simp [DB2.resourcesMeterQuery]

/-- Witness for the amended C1 at a concrete store: one matching sample for
resource `r1` and no time bound — the resource is yielded because (and only
because) the meter collection holds a sample for it. -/
theorem c1_witness :
    DB2.toResourceModel resourceDocR1
      ∈ [DB2.toResourceModel resourceDocR1] := by
  have h := (c1_amended_meter_indirection [meterDocR1] [resourceDocR1]
    none none none none none none none none []).1
    [DB2.toResourceModel resourceDocR1] (by decide)
  exact h.2 resourceDocR1 (by simp) ⟨meterDocR1, by simp, by decide, rfl⟩

/-! ## Alarm documents and `get_alarms` -/

namespace DB2

/-- A document in the `alarm` collection: an upserted alarm definition with
the storage `_id` and the dual-shape `matching_metadata`. -/
structure AlarmDoc where
  _id : String := ""
  alarm_id : String := ""
  name : String := ""
  user_id : String := ""
  project_id : String := ""
  enabled : Bool := true
  matching_metadata : MetaWire := .flat []
deriving DecidableEq, Repr

/-- The `models.Alarm` record yielded to callers: the stored document minus
`_id`, with `matching_metadata` decoded to a flat map. -/
structure AlarmModel where
  alarm_id : String
  name : String
  user_id : String
  project_id : String
  enabled : Bool
  matching_metadata : List (String × String)
deriving DecidableEq, Repr

/-- The yield step of `get_alarms`: copy the document, delete `_id`, decode
`matching_metadata` through the dual-shape codec. -/
def toAlarmModel (a : AlarmDoc) : AlarmModel :=
  { alarm_id := a.alarm_id
    name := a.name
    user_id := a.user_id
    project_id := a.project_id
    enabled := a.enabled
    matching_metadata := decode_matching_metadata a.matching_metadata }

/-- Optional boolean equality constraint (for the `enabled` filter). -/
def matchOptBool (c : Option Bool) (v : Bool) : Bool :=
  match c with
  | none => true
  | some b => b == v

/-- The equality filter `q` of `get_alarms`: one constraint per argument
whose value is not `None`, in the order the code inserts them. -/
def alarmMatches (name user project : Option String) (enabled : Option Bool)
    (alarm_id : Option String) (a : AlarmDoc) : Bool :=
  matchOpt user a.user_id
  && matchOpt project a.project_id
  && matchOpt name a.name
  && matchOptBool enabled a.enabled
  && matchOpt alarm_id a.alarm_id

/-- Embeds `Connection.get_alarms(name, user, project, enabled=True,
alarm_id, pagination)`.  The Lean default arguments mirror the Python
defaults: in particular `enabled` defaults to `some true`, not `none`. -/
def get_alarms (db : List AlarmDoc) (name user project : Option String := none)
    (enabled : Option Bool := some true) (alarm_id : Option String := none)
    (pagination : Option Unit := none) : Except StorageError (List AlarmModel) :=
  if pagination.isSome then .error (.notImplemented "Pagination not implemented")
  else
    .ok ((db.filter (alarmMatches name user project enabled alarm_id)).map
      toAlarmModel)

/-- Modelled from the claim's words, NOT from the source, for comparison
with `get_alarms`: with every argument omitted no equality constraint at all
is applied, so every stored alarm is yielded (decoded, `_id` removed). -/
def get_alarms_claimed_omitted (db : List AlarmDoc) :
    Except StorageError (List AlarmModel) :=
  .ok (db.map toAlarmModel)

theorem matchOpt_true_iff (c : Option String) (v : String) :
    matchOpt c v = true ↔ ∀ s, c = some s → s = v := by
  cases c with
  | none => simp [matchOpt]
  | some s =>
      simp only [matchOpt, beq_iff_eq, Option.some.injEq]
      constructor
      · intro h s' hs'
        subst hs'
        exact h
      · intro h
        exact h s rfl

theorem matchOptBool_true_iff (c : Option Bool) (v : Bool) :
    matchOptBool c v = true ↔ ∀ b, c = some b → b = v := by
  cases c with
  | none => simp [matchOptBool]
  | some b =>
      simp only [matchOptBool, beq_iff_eq, Option.some.injEq]
      constructor
      · intro h b' hb'
        subst hb'
        exact h
      · intro h
        exact h b rfl

end DB2

/-! ## C7: `get_alarms` filtering, decoding and the `enabled` default -/

/-- Concrete disabled alarm document for the C7 counterexample. -/
def alarmDocDisabled : DB2.AlarmDoc :=
  { _id := "x1", alarm_id := "a1", name := "n1", user_id := "u1",
    project_id := "p1", enabled := false,
    matching_metadata := .pairs [("k", "v")] }

/-- Concrete enabled alarm document for the C7 witness. -/
def alarmDocEnabled : DB2.AlarmDoc :=
  { _id := "x2", alarm_id := "a2", name := "n2", user_id := "u2",
    project_id := "p2", enabled := true, matching_metadata := .flat [] }

/-- C7 counterexample: the `enabled` argument defaults to `True`, not to
"no constraint".  Calling `get_alarms` with every argument omitted on a
store holding one disabled alarm yields nothing, while the claim (no
constraint on any omitted argument) predicts that alarm is yielded. -/
theorem c7_counterexample :
    DB2.get_alarms [alarmDocDisabled] = .ok []
    ∧ DB2.get_alarms_claimed_omitted [alarmDocDisabled]
        = .ok [DB2.toAlarmModel alarmDocDisabled]
    ∧ DB2.get_alarms [alarmDocDisabled]
        ≠ DB2.get_alarms_claimed_omitted [alarmDocDisabled] :=
  ⟨by decide, by decide, by decide⟩

/-- C7 amended: `get_alarms` applies an equality constraint for each of
name, user, project, enabled and alarm id exactly when that argument's
value is not `None` — but `enabled` defaults to `True`, so a call that
omits `enabled` still constrains `enabled = True`; only an explicit `None`
omits that constraint.  Every yielded alarm is a stored document with its
`matching_metadata` decoded through the dual-shape codec and the
storage-internal `_id` removed (the yield is independent of `_id`). -/
theorem c7_get_alarms_amended (db : List DB2.AlarmDoc)
    (name user project : Option String) (enabled : Option Bool)
    (aid : Option String) :
    ∀ res, DB2.get_alarms db name user project enabled aid none = .ok res →
      (∀ a, a ∈ res ↔ ∃ d ∈ db,
        (∀ s, name = some s → s = d.name)
        ∧ (∀ s, user = some s → s = d.user_id)
        ∧ (∀ s, project = some s → s = d.project_id)
        ∧ (∀ b, enabled = some b → b = d.enabled)
        ∧ (∀ s, aid = some s → s = d.alarm_id)
        ∧ a = DB2.toAlarmModel d)
      ∧ (∀ d : DB2.AlarmDoc, (DB2.toAlarmModel d).matching_metadata
          = DB2.decode_matching_metadata d.matching_metadata)
      ∧ (∀ d : DB2.AlarmDoc, ∀ i, DB2.toAlarmModel { d with _id := i }
          = DB2.toAlarmModel d) := by
  intro res hok
  unfold DB2.get_alarms at hok
  rw [if_neg (by simp)] at hok
  simp only [Except.ok.injEq] at hok
  subst hok
  refine ⟨?_, fun d => rfl, fun d i => rfl⟩
  intro a
  constructor
  · intro ha
    rcases List.mem_map.mp ha with ⟨d, hd, hda⟩
    rcases List.mem_filter.mp hd with ⟨hdb, hp⟩
    simp only [DB2.alarmMatches, Bool.and_eq_true] at hp
    obtain ⟨⟨⟨⟨hu, hpj⟩, hn⟩, he⟩, hid⟩ := hp
    exact ⟨d, hdb, (DB2.matchOpt_true_iff _ _).mp hn,
      (DB2.matchOpt_true_iff _ _).mp hu, (DB2.matchOpt_true_iff _ _).mp hpj,
      (DB2.matchOptBool_true_iff _ _).mp he,
      (DB2.matchOpt_true_iff _ _).mp hid, hda.symm⟩
  · rintro ⟨d, hdb, hn, hu, hpj, he, hid, ha⟩
    subst ha
    apply List.mem_map_of_mem
    rw [List.mem_filter]
    refine ⟨hdb, ?_⟩
    simp only [DB2.alarmMatches, Bool.and_eq_true]
    exact ⟨⟨⟨⟨(DB2.matchOpt_true_iff _ _).mpr hu,
      (DB2.matchOpt_true_iff _ _).mpr hpj⟩,
      (DB2.matchOpt_true_iff _ _).mpr hn⟩,
      (DB2.matchOptBool_true_iff _ _).mpr he⟩,
      (DB2.matchOpt_true_iff _ _).mpr hid⟩

/-- Witness for the amended C7 at a concrete store: with the default
arguments an enabled alarm is yielded, decoded. -/
theorem c7_witness :
    DB2.toAlarmModel alarmDocEnabled ∈ [DB2.toAlarmModel alarmDocEnabled] := by
  have h := c7_get_alarms_amended [alarmDocEnabled] none none none (some true)
    none [DB2.toAlarmModel alarmDocEnabled] (by decide)
  apply (h.1 (DB2.toAlarmModel alarmDocEnabled)).mpr
  refine ⟨alarmDocEnabled, by simp, ?_, ?_, ?_, ?_, ?_, rfl⟩
  · intro s hs
    exact absurd hs (by simp)
  · intro s hs
    exact absurd hs (by simp)
  · intro s hs
    exact absurd hs (by simp)
  · intro b hb
    injection hb with hb
    subst hb
    rfl
  · intro s hs
    exact absurd hs (by simp)

/-! ## Write Path: `record_metering_data` -/

namespace DB2

/-- A document in the `user` or `project` collection: the identity id and
its set of reporting sources. -/
structure SourceDoc where
  _id : String
  source : List String
deriving DecidableEq, Repr

/-- Mongo `$addToSet`: append the element unless already present. -/
def addToSet {α : Type} [DecidableEq α] (l : List α) (x : α) : List α :=
  if x ∈ l then l else l ++ [x]

/-- Applies the user/project update (`$addToSet` on `source`) to the first
document matching the id, as a non-multi Mongo update does. -/
def updateFirstSource : List SourceDoc → String → String → List SourceDoc
  | [], _, _ => []
  | d :: ds, i, src =>
      if d._id = i then { d with source := addToSet d.source src } :: ds
      else d :: updateFirstSource ds i src

/-- The upsert on `user`/`project`: update the existing document's source
set, or insert `{_id: id, source: [src]}` when the id is absent. -/
def upsertSource (coll : List SourceDoc) (i src : String) : List SourceDoc :=
  if coll.any fun d => d._id = i then updateFirstSource coll i src
  else coll ++ [{ _id := i, source := [src] }]

/-- Applies the resource update to the first document matching the resource
id: `$set` overwrites `project_id`, `user_id`, `metadata`, `source`;
`$addToSet` adds the meter-descriptor triple. -/
def updateFirstResource : List ResourceDoc → MeterDoc → List ResourceDoc
  | [], _ => []
  | r :: rs, data =>
      if r._id = data.resource_id then
        { r with
          project_id := data.project_id
          user_id := data.user_id
          metadata := data.resource_metadata
          source := data.source
          meter := addToSet r.meter
            (data.counter_name, data.counter_type, data.counter_unit) } :: rs
      else r :: updateFirstResource rs data

/-- The upsert on `resource`: update the existing document, or insert a new
document built from the query id, the `$set` fields and the single-element
`$addToSet` array. -/
def upsertResource (coll : List ResourceDoc) (data : MeterDoc) :
    List ResourceDoc :=
  if coll.any fun r => r._id = data.resource_id then
    updateFirstResource coll data
  else
    coll ++ [{ _id := data.resource_id
               project_id := data.project_id
               user_id := data.user_id
               source := data.source
               metadata := data.resource_metadata
               meter := [(data.counter_name, data.counter_type,
                 data.counter_unit)] }]

/-- The four metering collections. -/
structure MeteringState where
  user : List SourceDoc := []
  project : List SourceDoc := []
  resource : List ResourceDoc := []
  meter : List MeterDoc := []
deriving DecidableEq, Repr

/-- Embeds `Connection.record_metering_data(data)`: upsert user and project
with `$addToSet` on `source`, upsert the resource document, then insert the
raw sample into `meter` on a copy of the caller's record, generating the
storage id `genId` when the data carries none. -/
def record_metering_data (st : MeteringState) (data : MeterDoc)
    (genId : String) : MeteringState :=
  { user := upsertSource st.user data.user_id data.source
    project := upsertSource st.project data.project_id data.source
    resource := upsertResource st.resource data
    meter := st.meter ++ [{ data with _id := some (data._id.getD genId) }] }

end DB2

/-! ## C4: recording the same payload twice -/

/-- C4: starting from an empty store, recording an identical sample payload
twice (with distinct generated storage ids) leaves exactly one user
document, one project document and one resource document for the payload's
identities, the second call changing none of their source sets nor the
resource's meter-descriptor set, while the meter collection holds exactly
two raw sample documents — one per call, with distinct ids. -/
theorem c4_record_twice_idempotent (data : DB2.MeterDoc) (id1 id2 : String)
    (hid : data._id = none) (hdistinct : id1 ≠ id2) :
    (DB2.record_metering_data (DB2.record_metering_data {} data id1) data
        id2).user
      = [{ _id := data.user_id, source := [data.source] }]
    ∧ (DB2.record_metering_data (DB2.record_metering_data {} data id1) data
        id2).project
      = [{ _id := data.project_id, source := [data.source] }]
    ∧ (DB2.record_metering_data (DB2.record_metering_data {} data id1) data
        id2).resource
      = [{ _id := data.resource_id
           project_id := data.project_id
           user_id := data.user_id
           source := data.source
           metadata := data.resource_metadata
           meter := [(data.counter_name, data.counter_type,
             data.counter_unit)] }]
    ∧ (DB2.record_metering_data (DB2.record_metering_data {} data id1) data
        id2).user
      = (DB2.record_metering_data {} data id1).user
    ∧ (DB2.record_metering_data (DB2.record_metering_data {} data id1) data
        id2).project
      = (DB2.record_metering_data {} data id1).project
    ∧ (DB2.record_metering_data (DB2.record_metering_data {} data id1) data
        id2).resource
      = (DB2.record_metering_data {} data id1).resource
    ∧ (DB2.record_metering_data (DB2.record_metering_data {} data id1) data
        id2).meter
      = [{ data with _id := some id1 }, { data with _id := some id2 }]
    ∧ ((DB2.record_metering_data (DB2.record_metering_data {} data id1) data
        id2).meter.map DB2.MeterDoc._id).Nodup := by
  have hstep : ∀ st : DB2.MeteringState, ∀ g,
      DB2.record_metering_data st data g
        = { user := DB2.upsertSource st.user data.user_id data.source
            project := DB2.upsertSource st.project data.project_id data.source
            resource := DB2.upsertResource st.resource data
            meter := st.meter ++ [{ data with _id := some (data._id.getD g) }] } :=
    fun st g => rfl
  refine ⟨?_, ?_, ?_, ?_, ?_, ?_, ?_, ?_⟩ <;>
    simp [DB2.record_metering_data, DB2.upsertSource, DB2.updateFirstSource,
      DB2.upsertResource, DB2.updateFirstResource, DB2.addToSet, hid,
      hdistinct]

/-- Concrete sample payload for the C4 witness. -/
def samplePayload : DB2.MeterDoc :=
  { user_id := "u1", project_id := "p1", resource_id := "r1", source := "src1",
    counter_name := "cpu", counter_type := "gauge",
    counter_unit := some "percent", counter_volume := 42, timestamp := 7,
    resource_metadata := [("host", "h1")] }

/-- Witness for C4 at a concrete payload: two records with distinct
generated ids leave exactly two raw sample documents and one user document. -/
theorem c4_witness :
    (DB2.record_metering_data (DB2.record_metering_data {} samplePayload
        "id1") samplePayload "id2").meter
      = [{ samplePayload with _id := some "id1" },
         { samplePayload with _id := some "id2" }]
    ∧ (DB2.record_metering_data (DB2.record_metering_data {} samplePayload
        "id1") samplePayload "id2").user
      = [{ _id := "u1", source := ["src1"] }] := by
  have h := c4_record_twice_idempotent samplePayload "id1" "id2" rfl
    (by decide)
  exact ⟨h.2.2.2.2.2.2.1, h.1⟩

/-! ## Remaining read path and unsupported operations -/

namespace DB2

/-- The `models.Meter` record yielded by `get_meters`: one descriptor per
entry of a resource's meter set, inheriting the resource's ownership. -/
structure MeterModel where
  name : String
  type : String
  unit : String
  resource_id : String
  project_id : String
  source : String
  user_id : String
deriving DecidableEq, Repr

/-- The equality filter of `get_meters` evaluated against one resource
document (`user_id`, `project_id`, `_id`, `source`, raw metaquery against
the dotted metadata fields). -/
def metersResourceMatches (user project resource source : Option String)
    (metaquery : List (String × String)) (r : ResourceDoc) : Bool :=
  matchOpt user r.user_id
  && matchOpt project r.project_id
  && matchOpt resource r._id
  && matchOpt source r.source
  && metaquery.all fun kv =>
      (r.metadata.map fun p => ("metadata." ++ p.1, p.2)).lookup kv.1
        == some kv.2

/-- Embeds `Connection.get_meters`: rejects pagination, filters the resource
collection directly and flattens each matching resource's meter-descriptor
set, defaulting a missing unit to the empty string. -/
def get_meters (resourceColl : List ResourceDoc)
    (user project resource source : Option String)
    (metaquery : List (String × String)) (pagination : Option Unit) :
    Except StorageError (List MeterModel) :=
  if pagination.isSome then .error (.notImplemented "Pagination not implemented")
  else
    .ok ((resourceColl.filter
        (metersResourceMatches user project resource source metaquery)).flatMap
      fun r => r.meter.map fun t =>
        { name := t.1
          type := t.2.1
          unit := t.2.2.getD ""
          resource_id := r._id
          project_id := r.project_id
          source := r.source
          user_id := r.user_id })

/-- Embeds `Connection.get_meter_statistics`: the method raises
`NotImplementedError("Statistics not implemented")` on its first statement,
before reading any argument, so the disabled aggregation pipeline below the
raise is dead code and is not modelled. -/
def get_meter_statistics (sample_filter : SampleFilter)
    (period : Option Nat := none) (groupby : Option (List String) := none) :
    Except StorageError (List Unit) :=
  .error (.notImplemented "Statistics not implemented")

/-- Embeds `Connection.clear_expired_metering_data(ttl)`: always raises. -/
def clear_expired_metering_data (ttl : Nat) : Except StorageError Unit :=
  .error (.notImplemented "TTL not implemented.")

/-- Embeds `Connection.get_alarm_changes(alarm_id, on_behalf_of)`: always
raises. -/
def get_alarm_changes (alarm_id : String) (on_behalf_of : Option String) :
    Except StorageError (List Unit) :=
  .error (.notImplemented "Alarm history not implemented")

/-- Embeds `Connection.record_alarm_change(alarm_change)`: always raises. -/
def record_alarm_change (alarm_change : List (String × String)) :
    Except StorageError Unit :=
  .error (.notImplemented "Alarm history not implemented")

/-- Embeds `Connection.record_events(events)`: always raises. -/
def record_events (events : List (List (String × String))) :
    Except StorageError Unit :=
  .error (.notImplemented "Events not implemented.")

/-- Embeds `Connection.get_events(event_filter)`: always raises. -/
def get_events (event_filter : List (String × String)) :
    Except StorageError (List Unit) :=
  .error (.notImplemented "Events not implemented.")

end DB2

/-! ## C8: unsupported operations fail deterministically -/

/-- C8: for every input, the unsupported operations fail with a
not-implemented `StorageError` and never return an (empty or default)
result: `get_meter_statistics` and `clear_expired_metering_data` always;
`get_resources`, `get_meters` and `get_alarms` whenever a pagination
argument is supplied; and `get_alarm_changes`, `record_alarm_change`,
`record_events` and `get_events` always. -/
theorem c8_unsupported_ops (f : DB2.SampleFilter) (period : Option Nat)
    (groupby : Option (List String)) (ttl : Nat) (mc : List DB2.MeterDoc)
    (rc : List DB2.ResourceDoc) (ac : List DB2.AlarmDoc)
    (user project source resource name aid obo : Option String)
    (enabled : Option Bool) (st : Option Nat) (sop : Option String)
    («et» : Option Nat) (eop : Option String) (mq : List (String × String))
    (p : Unit) (aid2 : String) (ch : List (String × String))
    (evs : List (List (String × String))) (ef : List (String × String)) :
    DB2.get_meter_statistics f period groupby
      = .error (.notImplemented "Statistics not implemented")
    ∧ DB2.clear_expired_metering_data ttl
      = .error (.notImplemented "TTL not implemented.")
    ∧ DB2.get_resources mc rc user project source resource st sop «et» eop mq
        (some p)
      = .error (.notImplemented "Pagination not implemented")
    ∧ DB2.get_meters rc user project resource source mq (some p)
      = .error (.notImplemented "Pagination not implemented")
    ∧ DB2.get_alarms ac name user project enabled aid (some p)
      = .error (.notImplemented "Pagination not implemented")
    ∧ DB2.get_alarm_changes aid2 obo
      = .error (.notImplemented "Alarm history not implemented")
    ∧ DB2.record_alarm_change ch
      = .error (.notImplemented "Alarm history not implemented")
    ∧ DB2.record_events evs
      = .error (.notImplemented "Events not implemented.")
    ∧ DB2.get_events ef
      = .error (.notImplemented "Events not implemented.") :=
  ⟨rfl, rfl, rfl, rfl, rfl, rfl, rfl, rfl, rfl⟩

/-! ## Schema Manager: `upgrade` -/

namespace DB2

/-- Mongo `ensure_index`: record the named index if not already present. -/
def ensure_index (idx : List String) (name : String) : List String :=
  if name ∈ idx then idx else idx ++ [name]

/-- Collection `remove({'_id': i})`: delete every document with that id. -/
def removeById (docs : List String) (i : String) : List String :=
  docs.filter fun d => d ≠ i

/-- The four collections' document ids plus the index metadata that
`upgrade` reads and writes.  Documents are keyed by their `_id`, the only
field `upgrade`'s inserts and removes touch. -/
structure SchemaState where
  user_docs : List String := []
  project_docs : List String := []
  resource_docs : List String := []
  meter_docs : List String := []
  resource_indexes : List String := []
  meter_indexes : List String := []
deriving DecidableEq, Repr

/-- Embeds `Connection.upgrade`: when the `resource` collection reports no
index metadata, insert a sentinel document into `resource` and `meter`,
create `resource_idx` on `resource` and `meter_idx` plus `timestamp_idx` on
`meter`, remove both sentinels, then insert-and-remove a sentinel in `user`
and `project`; otherwise do nothing.  `rid`, `mid`, `uid`, `pid` are the
generated sentinel object ids. -/
def upgrade (st : SchemaState) (rid mid uid pid : String) : SchemaState :=
  if st.resource_indexes = [] then
    { st with
      resource_docs := removeById (st.resource_docs ++ [rid]) rid
      meter_docs := removeById (st.meter_docs ++ [mid]) mid
      user_docs := removeById (st.user_docs ++ [uid]) uid
      project_docs := removeById (st.project_docs ++ [pid]) pid
      resource_indexes := ensure_index st.resource_indexes "resource_idx"
      meter_indexes :=
        ensure_index (ensure_index st.meter_indexes "meter_idx")
          "timestamp_idx" }
  else st

theorem removeById_insert_fresh (docs : List String) (x : String)
    (h : x ∉ docs) : removeById (docs ++ [x]) x = docs := by
  unfold removeById
  rw [List.filter_append]
  have h1 : docs.filter (fun y => y ≠ x) = docs := by
    apply List.filter_eq_self.mpr
    intro a ha
    simp only [ne_eq, decide_not, Bool.not_eq_true', decide_eq_false_iff_not,
      Decidable.not_not]
    intro hax
    subst hax
    exact h ha
  have h2 : [x].filter (fun y => y ≠ x) = [] := by simp
  rw [h1, h2, List.append_nil]

end DB2

/-! ## C9: the Schema Manager is idempotent -/

/-- C9: on a store whose resource collection reports no index metadata,
`upgrade` creates the resource and meter indexes and removes every sentinel
document it inserted (given fresh sentinel ids), leaving the four
collections exactly as they were; run a second time in sequence — with any
sentinel ids — it detects the non-empty index metadata and performs no
index creation and no other writes. -/
theorem c9_upgrade_idempotent (st : DB2.SchemaState)
    (rid mid uid pid rid2 mid2 uid2 pid2 : String)
    (hempty : st.resource_indexes = [])
    (hr : rid ∉ st.resource_docs) (hm : mid ∉ st.meter_docs)
    (hu : uid ∉ st.user_docs) (hp : pid ∉ st.project_docs) :
    (DB2.upgrade st rid mid uid pid).resource_docs = st.resource_docs
    ∧ (DB2.upgrade st rid mid uid pid).meter_docs = st.meter_docs
    ∧ (DB2.upgrade st rid mid uid pid).user_docs = st.user_docs
    ∧ (DB2.upgrade st rid mid uid pid).project_docs = st.project_docs
    ∧ (DB2.upgrade st rid mid uid pid).resource_indexes = ["resource_idx"]
    ∧ "meter_idx" ∈ (DB2.upgrade st rid mid uid pid).meter_indexes
    ∧ "timestamp_idx" ∈ (DB2.upgrade st rid mid uid pid).meter_indexes
    ∧ DB2.upgrade (DB2.upgrade st rid mid uid pid) rid2 mid2 uid2 pid2
        = DB2.upgrade st rid mid uid pid := by
  have hrun : DB2.upgrade st rid mid uid pid
      = { st with
          resource_docs := DB2.removeById (st.resource_docs ++ [rid]) rid
          meter_docs := DB2.removeById (st.meter_docs ++ [mid]) mid
          user_docs := DB2.removeById (st.user_docs ++ [uid]) uid
          project_docs := DB2.removeById (st.project_docs ++ [pid]) pid
          resource_indexes := DB2.ensure_index st.resource_indexes
            "resource_idx"
          meter_indexes :=
            DB2.ensure_index (DB2.ensure_index st.meter_indexes "meter_idx")
              "timestamp_idx" } := by
    unfold DB2.upgrade
    rw [if_pos hempty]
  have hresidx : (DB2.upgrade st rid mid uid pid).resource_indexes
      = ["resource_idx"] := by
    rw [hrun]
    simp [DB2.ensure_index, hempty]
  refine ⟨?_, ?_, ?_, ?_, hresidx, ?_, ?_, ?_⟩
  · rw [hrun]; exact DB2.removeById_insert_fresh _ _ hr
  · rw [hrun]; exact DB2.removeById_insert_fresh _ _ hm
  · rw [hrun]; exact DB2.removeById_insert_fresh _ _ hu
  · rw [hrun]; exact DB2.removeById_insert_fresh _ _ hp
  · rw [hrun]
    show "meter_idx" ∈ DB2.ensure_index
      (DB2.ensure_index st.meter_indexes "meter_idx") "timestamp_idx"
    unfold DB2.ensure_index
    by_cases h1 : "meter_idx" ∈ st.meter_indexes <;>
      by_cases h2 : "timestamp_idx" ∈
        (if "meter_idx" ∈ st.meter_indexes then st.meter_indexes
         else st.meter_indexes ++ ["meter_idx"]) <;>
      simp_all
  · rw [hrun]
    show "timestamp_idx" ∈ DB2.ensure_index
      (DB2.ensure_index st.meter_indexes "meter_idx") "timestamp_idx"
    unfold DB2.ensure_index
    by_cases h1 : "meter_idx" ∈ st.meter_indexes <;>
      by_cases h2 : "timestamp_idx" ∈
        (if "meter_idx" ∈ st.meter_indexes then st.meter_indexes
         else st.meter_indexes ++ ["meter_idx"]) <;>
      simp_all
  · have hne : (DB2.upgrade st rid mid uid pid).resource_indexes ≠ [] := by
      rw [hresidx]
      simp
    generalize hgen : DB2.upgrade st rid mid uid pid = s1 at hne ⊢
    unfold DB2.upgrade
    rw [if_neg hne]

/-- Witness for C9 at a concrete store with one pre-existing resource
document and empty index metadata: the first run creates `resource_idx`
and leaves the collections unchanged; the second run is a no-op. -/
theorem c9_witness :
    (DB2.upgrade { resource_docs := ["rA"] } "s1" "s2" "s3" "s4").resource_docs
      = ["rA"]
    ∧ (DB2.upgrade { resource_docs := ["rA"] } "s1" "s2" "s3"
        "s4").resource_indexes = ["resource_idx"]
    ∧ DB2.upgrade (DB2.upgrade { resource_docs := ["rA"] } "s1" "s2" "s3"
        "s4") "t1" "t2" "t3" "t4"
      = DB2.upgrade { resource_docs := ["rA"] } "s1" "s2" "s3" "s4" := by
  have h := c9_upgrade_idempotent { resource_docs := ["rA"] }
    "s1" "s2" "s3" "s4" "t1" "t2" "t3" "t4" rfl (by decide) (by decide)
    (by decide) (by decide)
  exact ⟨h.1, h.2.2.2.2.1, h.2.2.2.2.2.2.2⟩

/-! ## Connection Pool -/

namespace DB2

/-- Embeds `ConnectionPool.connect(url)`.  The pool `pool` maps each url to
the id of the connection its weak reference points at; `live` is the set of
connection ids still strongly referenced by some external holder, so
dereferencing the weak reference yields the client exactly when its id is
in `live`.  If a cached, still-live entry exists for `url` it is returned
and the pool is untouched; otherwise a new connection with the fresh id
`fresh` is established, cached under `url`, and returned. -/
def connect (pool : List (String × Nat)) (live : List Nat) (url : String)
    (fresh : Nat) : Nat × List (String × Nat) :=
  match pool.lookup url with
  | some c => if c ∈ live then (c, pool) else (fresh, dictInsert pool url fresh)
  | none => (fresh, dictInsert pool url fresh)

theorem lookup_dictInsert {β : Type} (al : List (String × β)) (k : String)
    (v : β) : (dictInsert al k v).lookup k = some v := by
  unfold dictInsert
  by_cases h : k ∈ al.map Prod.fst
  · rw [if_pos h]
    induction al with
    | nil => simp at h
    | cons kv rest ih =>
        by_cases hkv : kv.1 = k
        · rw [List.map_cons, if_pos hkv]
          simp [List.lookup]
        · rw [List.map_cons, if_neg hkv]
          have hk : (k == kv.1) = false := by
            simp [Ne.symm hkv]
          simp only [List.lookup, hk]
          apply ih
          simp only [List.map_cons, List.mem_cons] at h
          rcases h with h | h
          · exact absurd h.symm hkv
          · exact h
  · rw [if_neg h]
    induction al with
    | nil => simp [List.lookup]
    | cons kv rest ih =>
        have hkv : kv.1 ≠ k := by
          intro hc
          exact h (by simp [hc])
        have hk : (k == kv.1) = false := by
          simp [Ne.symm hkv]
        simp only [List.cons_append, List.lookup, hk]
        apply ih
        intro hc
        exact h (by simp [hc])

theorem connect_cached (pool : List (String × Nat)) (live : List Nat)
    (url : String) (c f : Nat) (h : pool.lookup url = some c) :
    connect pool live url f
      = if c ∈ live then (c, pool) else (f, dictInsert pool url f) := by
  unfold connect
  simp only [h]

theorem connect_lookup (pool : List (String × Nat)) (live : List Nat)
    (url : String) (fresh : Nat) :
    ((connect pool live url fresh).2).lookup url
      = some (connect pool live url fresh).1 := by
  unfold connect
  rcases hl : pool.lookup url with _ | c
  · simp only [hl]
    simpa using lookup_dictInsert pool url fresh
  · simp only [hl]
    by_cases hc : c ∈ live
    · rw [if_pos hc]
      exact hl
    · rw [if_neg hc]
      simpa using lookup_dictInsert pool url fresh

end DB2

/-! ## C10: pool reuse while held, fresh connection after release -/

/-- C10: after a `connect(url)` call returns connection `c₁` with pool state
`p₁`, a second `connect(url)` while `c₁` is still held by some external
holder returns the identical connection instance (and leaves the pool
untouched); once no external holder keeps `c₁` alive, a subsequent
`connect(url)` establishes and returns a new connection instance — the
pool's weak cache never keeps `c₁` alive by itself. -/
theorem c10_pool_spec (pool : List (String × Nat)) (live live2 live3 : List Nat)
    (url : String) (f1 f2 f3 : Nat) :
    ((DB2.connect pool live url f1).1 ∈ live2 →
      DB2.connect (DB2.connect pool live url f1).2 live2 url f2
        = DB2.connect pool live url f1)
    ∧ ((DB2.connect pool live url f1).1 ∉ live3 →
        f3 ≠ (DB2.connect pool live url f1).1 →
        (DB2.connect (DB2.connect pool live url f1).2 live3 url f3).1 = f3
        ∧ (DB2.connect (DB2.connect pool live url f1).2 live3 url f3).1
            ≠ (DB2.connect pool live url f1).1) := by
  have hc := DB2.connect_lookup pool live url f1
  constructor
  · intro hheld
    rw [DB2.connect_cached _ _ _ _ _ hc, if_pos hheld]
  · intro hrel hfresh
    rw [DB2.connect_cached _ _ _ _ _ hc, if_neg hrel]
    exact ⟨rfl, hfresh⟩

/-- Witness for C10 at a concrete pool: connection 7 established for a url
is returned again while held; after release, a fresh connection 9 is
returned instead. -/
theorem c10_witness :
    DB2.connect (DB2.connect [] [] "mongodb://h1" 7).2 [7] "mongodb://h1" 8
      = DB2.connect [] [] "mongodb://h1" 7
    ∧ (DB2.connect (DB2.connect [] [] "mongodb://h1" 7).2 [] "mongodb://h1"
        9).1 = 9
    ∧ (DB2.connect (DB2.connect [] [] "mongodb://h1" 7).2 [] "mongodb://h1"
        9).1 ≠ (DB2.connect [] [] "mongodb://h1" 7).1 := by
  have h := c10_pool_spec [] [] [7] [] "mongodb://h1" 7 8 9
  exact ⟨h.1 (by decide), (h.2 (by decide) (by decide)).1,
    (h.2 (by decide) (by decide)).2⟩
